import Mathlib

/-
  Verification of the reconciliation controller in pkg/controller.go of the
  client-go-test repository.

  The Go code is shallowly embedded: the Kubernetes API objects the controller
  touches become Lean structures carrying exactly the fields the controller
  reads or writes; the external collaborators (service lister, ingress lister,
  and the networking client used for Create/Delete) become a record of
  functions, so that each theorem quantifies over every behaviour the
  collaborator interfaces allow.  Store calls issued by the controller are
  recorded in a list so that theorems can count them.
-/

deriving instance DecidableEq for Except

namespace ClientGoTest

/-- Embedding of metav1.OwnerReference restricted to the fields the controller
reads or writes (apiVersion, kind, name, uid, controller, blockOwnerDeletion). -/
structure OwnerReference where
  apiVersion : String
  kind : String
  name : String
  uid : String
  controller : Option Bool
  blockOwnerDeletion : Option Bool
deriving DecidableEq, Repr

/-- Embedding of corev1.Service restricted to the fields the controller reads:
namespace, name, uid and the annotation map (modelled as an association list). -/
structure Service where
  namespace_ : String
  name : String
  uid : String
  annotations : List (String × String)
deriving DecidableEq, Repr

/-- Embedding of networkingv1.ServiceBackendPort (only Number is set). -/
structure ServiceBackendPort where
  number : Nat
deriving DecidableEq, Repr

/-- Embedding of networkingv1.IngressServiceBackend. -/
structure IngressServiceBackend where
  name : String
  port : ServiceBackendPort
deriving DecidableEq, Repr

/-- Embedding of networkingv1.IngressBackend (the service backend pointer). -/
structure IngressBackend where
  service : Option IngressServiceBackend
deriving DecidableEq, Repr

/-- Embedding of networkingv1.HTTPIngressPath; PathType is kept as the string
the Go constant carries. -/
structure HTTPIngressPath where
  path : String
  pathType : Option String
  backend : IngressBackend
deriving DecidableEq, Repr

/-- Embedding of networkingv1.HTTPIngressRuleValue. -/
structure HTTPIngressRuleValue where
  paths : List HTTPIngressPath
deriving DecidableEq, Repr

/-- Embedding of networkingv1.IngressRule. -/
structure IngressRule where
  host : String
  http : Option HTTPIngressRuleValue
deriving DecidableEq, Repr

/-- Embedding of networkingv1.IngressSpec restricted to Rules. -/
structure IngressSpec where
  rules : List IngressRule
deriving DecidableEq, Repr

/-- Embedding of networkingv1.Ingress restricted to the fields the controller
reads or writes. -/
structure Ingress where
  namespace_ : String
  name : String
  ownerReferences : List OwnerReference
  spec : IngressSpec
deriving DecidableEq, Repr

/-- The configuration constants of pkg/controller.go, lines 22-25. -/
def workNum : Nat := 5

/-- Maximum requeue count checked by handlerError (controller.go line 24). -/
def maxRetry : Nat := 10

/-- Go errors as the controller distinguishes them: errors.IsNotFound singles
out not-found errors; every other error is opaque and carried as a string. -/
inductive GoErr where
  | notFound : GoErr
  | other : String → GoErr
deriving DecidableEq, Repr

/-- Splitting a character list at every slash, with the semantics of Go's
strings.Split(s, "/"): n separators yield n+1 parts and the empty string
yields one empty part. -/
def splitOnSlash : List Char → List (List Char)
  | [] => [[]]
  | c :: rest =>
      match splitOnSlash rest with
      | [] => []
      | seg :: segs =>
          if c = '/' then [] :: seg :: segs else (c :: seg) :: segs

/-- Go's strings.Split(s, "/") over Lean strings. -/
def stringsSplitSlash (s : String) : List String :=
  (splitOnSlash s.data).map String.mk

/-- Embedding of cache.SplitMetaNamespaceKey: strings.Split on the slash;
one part means cluster-scoped (empty namespace), two parts are namespace and
name, anything else is an unexpected-key-format error. -/
def splitMetaNamespaceKey (key : String) : Except GoErr (String × String) :=
  match stringsSplitSlash key with
  | [name] => Except.ok ("", name)
  | [ns, name] => Except.ok (ns, name)
  | _ => Except.error (GoErr.other ("unexpected key format: " ++ key))

/-- The external collaborators of syncService: the service lister, the ingress
lister, and the networking client used for Create and Delete.  Each is an
arbitrary function from the request to the result the interface allows, so a
theorem over SyncEnv covers every collaborator behaviour.  A lister Get in Go
returns a nil pointer exactly when it returns an error, which Except captures. -/
structure SyncEnv where
  serviceGet : String → String → Except GoErr Service
  ingressGet : String → String → Except GoErr Ingress
  createIngress : String → Ingress → Except GoErr Ingress
  deleteIngress : String → String → Option GoErr

/-- A mutating call issued against the resource store. -/
inductive StoreCall where
  | create : String → Ingress → StoreCall
  | delete : String → String → StoreCall
deriving DecidableEq, Repr

/-- How one syncService invocation ends: an ordinary return (with the returned
error value, none meaning nil), or a runtime panic. -/
inductive SyncOutcome where
  | ret : Option GoErr → SyncOutcome
  | panicked : SyncOutcome
deriving DecidableEq, Repr

/-- Embedding of constructIngress (controller.go lines 174-209): name and
namespace copied from the service, a single controller OwnerReference built by
metav1.NewControllerRef for kind Service in the core group (apiVersion v1,
controller and blockOwnerDeletion both set to true), and a spec with one rule
for host example.com holding a single path "/" of path type Prefix whose
backend is the service's own name on port number 80. -/
def constructIngress (service : Service) : Ingress :=
  { namespace_ := service.namespace_
    name := service.name
    ownerReferences :=
      [{ apiVersion := "v1"
         kind := "Service"
         name := service.name
         uid := service.uid
         controller := some true
         blockOwnerDeletion := some true }]
    spec :=
      { rules :=
          [{ host := "example.com"
             http := some
               { paths :=
                   [{ path := "/"
                      pathType := some "Prefix"
                      backend :=
                        { service := some
                            { name := service.name
                              port := { number := 80 } } } }] } }] } }

/-- Embedding of syncService (controller.go lines 129-163).  The result pairs
the outcome with the list of store calls issued, in order.  Faithful details:
a split error is returned via the named return value; errors.IsNotFound on the
service lookup returns nil; any OTHER service-lookup error is not returned --
the Go code falls through with a nil service pointer and faults at
service.GetAnnotations(), modelled as SyncOutcome.panicked; a non-not-found
ingress-lookup error is returned; the Create call is issued before its error
is inspected, likewise Delete. -/
def syncService (env : SyncEnv) (key : String) : SyncOutcome × List StoreCall :=
  match splitMetaNamespaceKey key with
  | Except.error e => (SyncOutcome.ret (some e), [])
  | Except.ok (nameSpaceKey, name) =>
    match env.serviceGet nameSpaceKey name with
    | Except.error GoErr.notFound => (SyncOutcome.ret none, [])
    | Except.error (GoErr.other _) => (SyncOutcome.panicked, [])
    | Except.ok service =>
      let ok := (service.annotations.lookup "ingress/http").isSome
      match env.ingressGet nameSpaceKey name with
      | Except.error (GoErr.other e) =>
          (SyncOutcome.ret (some (GoErr.other e)), [])
      | Except.error GoErr.notFound =>
          if ok then
            let ig := constructIngress service
            match env.createIngress nameSpaceKey ig with
            | Except.error e =>
                (SyncOutcome.ret (some e), [StoreCall.create nameSpaceKey ig])
            | Except.ok _ =>
                (SyncOutcome.ret none, [StoreCall.create nameSpaceKey ig])
          else
            (SyncOutcome.ret none, [])
      | Except.ok _ =>
          if ok then
            (SyncOutcome.ret none, [])
          else
            match env.deleteIngress nameSpaceKey name with
            | some e =>
                (SyncOutcome.ret (some e), [StoreCall.delete nameSpaceKey name])
            | none =>
                (SyncOutcome.ret none, [StoreCall.delete nameSpaceKey name])

/-
  The rate-limiting work queue state seen by handlerError.  The queue's
  DefaultControllerRateLimiter keeps a per-key failure counter: NumRequeues
  reads it, AddRateLimited increments it (via the rate limiter's When) and
  schedules the key, Forget removes it.  The counter map is modelled as an
  association list from key to count.
-/

/-- Per-key backoff counters of the rate-limiting queue. -/
abbrev RLState : Type := List (String × Nat)

/-- Embedding of queue.NumRequeues: the key's failure count, zero if absent. -/
def numRequeues (st : RLState) (key : String) : Nat :=
  ((List.lookup key st).getD 0)

/-- The rate limiter's When as called by AddRateLimited: increment the key's
failure count. -/
def rlWhen (st : RLState) (key : String) : RLState :=
  (key, numRequeues st key + 1) :: List.filter (fun p => p.1 != key) st

/-- Embedding of queue.Forget: remove the key's failure count. -/
def rlForget (st : RLState) (key : String) : RLState :=
  List.filter (fun p => p.1 != key) st

/-- The observable actions of handlerError, in program order. -/
inductive RetryAction where
  | addRateLimited : String → RetryAction
  | handleError : RetryAction
  | forget : String → RetryAction
deriving DecidableEq, Repr

/-- Embedding of handlerError (controller.go lines 165-172): if the key's
NumRequeues count is at most maxRetry, AddRateLimited (incrementing the
counter and re-enqueuing); then runtime.HandleError reports the error; then
Forget unconditionally clears the counter. -/
def handlerError (st : RLState) (key : String) : RLState × List RetryAction :=
  if numRequeues st key ≤ maxRetry then
    (rlForget (rlWhen st key) key,
      [RetryAction.addRateLimited key, RetryAction.handleError,
        RetryAction.forget key])
  else
    (rlForget st key, [RetryAction.handleError, RetryAction.forget key])

/-- What queue.Get reported to the worker: an item, or the shutdown signal. -/
inductive GetResult where
  | item : String → GetResult
  | shutdown : GetResult
deriving DecidableEq, Repr

/-- The observable outcome of one processNextItem call. -/
structure ProcResult where
  cont : Bool
  doneCalled : Bool
  storeCalls : List StoreCall
  retryActions : List RetryAction
  queueState : RLState
  panicked : Bool
deriving DecidableEq, Repr

/-- Embedding of processNextItem (controller.go lines 111-127): on shutdown
return false without Done; otherwise the deferred Done fires on every exit
path (including a panic unwinding out of syncService); a nil syncService
error returns true; a non-nil error runs handlerError and returns false. -/
def processNextItem (env : SyncEnv) (st : RLState) (g : GetResult) : ProcResult :=
  match g with
  | GetResult.shutdown =>
      { cont := false, doneCalled := false, storeCalls := [],
        retryActions := [], queueState := st, panicked := false }
  | GetResult.item key =>
    match syncService env key with
    | (SyncOutcome.panicked, calls) =>
        { cont := false, doneCalled := true, storeCalls := calls,
          retryActions := [], queueState := st, panicked := true }
    | (SyncOutcome.ret none, calls) =>
        { cont := true, doneCalled := true, storeCalls := calls,
          retryActions := [], queueState := st, panicked := false }
    | (SyncOutcome.ret (some _), calls) =>
        let he := handlerError st key
        { cont := false, doneCalled := true, storeCalls := calls,
          retryActions := he.2, queueState := he.1, panicked := false }

/-- The retry loop for a key whose reconciliation fails on every attempt:
each failed attempt runs handlerError; the next attempt happens exactly when
that handlerError issued AddRateLimited (otherwise the key is dropped).  The
result pairs the final counter state with the number of re-enqueues issued
over at most n failing attempts. -/
def failingAttempts (key : String) : Nat → RLState → RLState × Nat
  | 0, st => (st, 0)
  | n + 1, st =>
      let he := handlerError st key
      if RetryAction.addRateLimited key ∈ he.2 then
        let rest := failingAttempts key n he.1
        (rest.1, rest.2 + 1)
      else
        (he.1, 0)

/-
  The dispatcher side: enqueue and deleteIngress.
-/

/-- An object delivered to an event handler: either its metadata (namespace
and name) is accessible through meta.Accessor, or the accessor fails. -/
inductive EventObj where
  | withMeta : String → String → EventObj
  | noMeta : EventObj
deriving DecidableEq, Repr

/-- Embedding of cache.MetaNamespaceKeyFunc: namespace/name when a namespace
is present, bare name otherwise; on an inaccessible object it returns the
empty key together with an error. -/
def metaNamespaceKeyFunc : EventObj → String × Option GoErr
  | EventObj.withMeta ns name =>
      (if ns = "" then name else ns ++ "/" ++ name, none)
  | EventObj.noMeta => ("", some (GoErr.other "object has no meta"))

/-- The observable actions of enqueue, in program order. -/
inductive EnqueueAction where
  | handleError : EnqueueAction
  | add : String → EnqueueAction
deriving DecidableEq, Repr

/-- Embedding of enqueue (controller.go lines 61-69): derive the key; on a
key-derivation error only report it via runtime.HandleError; then
unconditionally queue.Add the (possibly empty) key. -/
def enqueue (obj : EventObj) : List EnqueueAction :=
  let r := metaNamespaceKeyFunc obj
  (match r.2 with
   | some _ => [EnqueueAction.handleError]
   | none => []) ++ [EnqueueAction.add r.1]

/-- Embedding of metav1.GetControllerOf: the first owner reference whose
controller field is set and true, if any. -/
def getControllerOf (refs : List OwnerReference) : Option OwnerReference :=
  List.find? (fun r => r.controller.getD false) refs

/-- Embedding of deleteIngress (controller.go lines 92-104), returning the
list of keys it enqueues: nothing when there is no controlling owner
reference or its kind is not Service, otherwise namespace + "/" + name. -/
def deleteIngress (ingress : Ingress) : List String :=
  match getControllerOf ingress.ownerReferences with
  | none => []
  | some ownerReference =>
      if ownerReference.kind != "Service" then []
      else [ingress.namespace_ ++ "/" ++ ingress.name]

/-
  World semantics for the idempotence property: the store holds sets of
  services and ingresses, the listers read them, and a Create or Delete call
  updates them.  This is the environment in which the listers at the second
  invocation reflect the store state the first invocation produced.
-/

/-- The resource store: the services and ingresses that currently exist. -/
structure World where
  services : List Service
  ingresses : List Ingress
deriving DecidableEq, Repr

/-- Service lookup over the world, as a lister backed by a fresh cache. -/
def World.getService (w : World) (ns name : String) : Except GoErr Service :=
  match List.find? (fun s => s.namespace_ == ns && s.name == name) w.services with
  | some s => Except.ok s
  | none => Except.error GoErr.notFound

/-- Ingress lookup over the world, as a lister backed by a fresh cache. -/
def World.getIngress (w : World) (ns name : String) : Except GoErr Ingress :=
  match List.find? (fun i => i.namespace_ == ns && i.name == name) w.ingresses with
  | some i => Except.ok i
  | none => Except.error GoErr.notFound

/-- The collaborators induced by a world: listers read the world and store
calls succeed. -/
def worldEnv (w : World) : SyncEnv :=
  { serviceGet := w.getService
    ingressGet := w.getIngress
    createIngress := fun _ ig => Except.ok ig
    deleteIngress := fun _ _ => none }

/-- The effect of one store call on the world. -/
def applyCall (w : World) : StoreCall → World
  | StoreCall.create _ ig => { w with ingresses := w.ingresses ++ [ig] }
  | StoreCall.delete ns name =>
      { w with ingresses :=
          (List.filter (fun i => !(i.namespace_ == ns && i.name == name)) w.ingresses) }

/-- The effect of a sequence of store calls on the world. -/
def applyCalls (w : World) (cs : List StoreCall) : World :=
  cs.foldl applyCall w

/-- One syncService invocation against a world: the calls it issues and the
world after the store has applied them. -/
def syncOnce (w : World) (key : String) : List StoreCall × World :=
  ((syncService (worldEnv w) key).2,
    applyCalls w (syncService (worldEnv w) key).2)

/-
  Concrete collaborator instances used by witnesses and counterexamples.
-/

/-- A service named web in namespace default carrying the enable annotation. -/
def svcWeb : Service :=
  { namespace_ := "default", name := "web", uid := "uid-1"
    annotations := [("ingress/http", "true")] }

/-- Collaborators whose results never change: the service web exists with the
enable annotation, the ingress lister reports not-found on every call, and
Create always succeeds.  This is the stale-cache scenario: the lister does
not reflect the ingress a previous Create produced. -/
def envStale : SyncEnv :=
  { serviceGet := fun _ _ => Except.ok svcWeb
    ingressGet := fun _ _ => Except.error GoErr.notFound
    createIngress := fun _ ig => Except.ok ig
    deleteIngress := fun _ _ => none }

/-- Collaborators over an empty store: both listers report not-found and
store calls succeed. -/
def envEmpty : SyncEnv :=
  { serviceGet := fun _ _ => Except.error GoErr.notFound
    ingressGet := fun _ _ => Except.error GoErr.notFound
    createIngress := fun _ ig => Except.ok ig
    deleteIngress := fun _ _ => none }

/-- Collaborators whose service lister fails with an internal (non-not-found)
error. -/
def envBoom : SyncEnv :=
  { serviceGet := fun _ _ => Except.error (GoErr.other "etcd leader changed")
    ingressGet := fun _ _ => Except.error GoErr.notFound
    createIngress := fun _ ig => Except.ok ig
    deleteIngress := fun _ _ => none }

/-- Both invocations of a run of two syncService calls whose collaborators
return the same results both times: with the environment fixed, each
invocation is the same function application, so the pair lists the store
calls of the first and of the second invocation. -/
def twoCallsFixed (env : SyncEnv) (key : String) :
    List StoreCall × List StoreCall :=
  ((syncService env key).2, (syncService env key).2)

/-
  Helper lemmas shared by the claim theorems.
-/

/-- Looking a key up after filtering out every pair with that key yields
nothing. -/
theorem lookup_filter_ne (st : RLState) (key : String) :
    List.lookup key (List.filter (fun p => p.1 != key) st) = none := by
  induction st with
  | nil => rfl
  | cons a t ih =>
      cases hpa : (a.1 != key) with
      | true =>
          have hne : ¬(key == a.1) = true := by
            simp only [bne_iff_ne, ne_eq] at hpa
            simp [beq_iff_eq]
            intro h
            exact hpa h.symm
          simp [List.filter_cons, hpa, List.lookup, hne, ih]
      | false => simp [List.filter_cons, hpa, ih]

/-- Forget clears the key's counter. -/
theorem numRequeues_rlForget (st : RLState) (key : String) :
    numRequeues (rlForget st key) key = 0 := by
  simp [numRequeues, rlForget, lookup_filter_ne]

/-- After handlerError the key's counter is always zero, because Forget runs
last on every path. -/
theorem numRequeues_handlerError (st : RLState) (key : String) :
    numRequeues (handlerError st key).1 key = 0 := by
  unfold handlerError
  by_cases h : numRequeues st key ≤ maxRetry <;>
    simp [h, numRequeues_rlForget]

/-- handlerError issues AddRateLimited whenever the counter check passes. -/
theorem handlerError_requeues (st : RLState) (key : String)
    (h : numRequeues st key ≤ maxRetry) :
    RetryAction.addRateLimited key ∈ (handlerError st key).2 := by
  simp [handlerError, h]

/-- handlerError issues no AddRateLimited when the counter check fails. -/
theorem handlerError_no_requeue (st : RLState) (key : String)
    (h : ¬ numRequeues st key ≤ maxRetry) :
    RetryAction.addRateLimited key ∉ (handlerError st key).2 := by
  simp [handlerError, h]

/-
  Claim theorems.
-/

/-- Claim C4: on every Reconciler failure, handlerError issues AddRateLimited
for the key exactly when the key's current NumRequeues count is at most
maxRetry, always reports the error to the process-wide error sink, and always
calls Forget as its final action, so the backoff counter is zero afterwards
even when a retry was just scheduled. -/
theorem handlerError_policy (st : RLState) (key : String) :
    (RetryAction.addRateLimited key ∈ (handlerError st key).2 ↔
      numRequeues st key ≤ maxRetry)
    ∧ RetryAction.handleError ∈ (handlerError st key).2
    ∧ (handlerError st key).2.getLast? = some (RetryAction.forget key)
    ∧ numRequeues (handlerError st key).1 key = 0 := by
  by_cases h : numRequeues st key ≤ maxRetry
  · refine ⟨?_, ?_, ?_, ?_⟩
    · simp [handlerError, h]
    · simp [handlerError, h]
    · simp [handlerError, h]
    · simp [handlerError, h, numRequeues_rlForget]
  · refine ⟨?_, ?_, ?_, ?_⟩
    · simp [handlerError, h]
    · simp [handlerError, h]
    · simp [handlerError, h]
    · simp [handlerError, h, numRequeues_rlForget]

/-- Witness for C4 at the empty queue state: the counter check passes and
AddRateLimited is issued. -/
theorem handlerError_policy_witness :
    numRequeues ([] : RLState) "default/db" ≤ maxRetry
    ∧ RetryAction.addRateLimited "default/db" ∈ (handlerError [] "default/db").2 :=
  ⟨by decide, (handlerError_policy [] "default/db").1.mpr (by decide)⟩

/-- Claim C6 evidence (code bug): when the service lister fails with an error
other than not-found, syncService does not return the error -- the Go code
falls through with a nil service pointer and faults at
service.GetAnnotations(), so the attempt ends in a panic, with no store call
issued. -/
theorem syncService_nil_deref :
    syncService envBoom "default/web" = (SyncOutcome.panicked, []) := by decide

/-- Claim C8: deleteIngress enqueues nothing when the deleted Ingress has no
controlling owner reference or its controlling owner reference's kind is not
Service, and otherwise enqueues exactly namespace + "/" + name. -/
theorem deleteIngress_ownership (ingress : Ingress) :
    (getControllerOf ingress.ownerReferences = none → deleteIngress ingress = [])
    ∧ (∀ r, getControllerOf ingress.ownerReferences = some r →
        r.kind ≠ "Service" → deleteIngress ingress = [])
    ∧ (∀ r, getControllerOf ingress.ownerReferences = some r →
        r.kind = "Service" →
          deleteIngress ingress = [ingress.namespace_ ++ "/" ++ ingress.name]) := by
  refine ⟨?_, ?_, ?_⟩
  · intro h; simp [deleteIngress, h]
  · intro r h hk; simp [deleteIngress, h, hk]
  · intro r h hk; simp [deleteIngress, h, hk]

/-- Witness for C8: the ingress constructIngress builds for svcWeb is
controlled by a Service owner reference, and its deletion enqueues its own
key. -/
theorem deleteIngress_ownership_witness :
    getControllerOf (constructIngress svcWeb).ownerReferences =
      some { apiVersion := "v1", kind := "Service", name := "web",
             uid := "uid-1", controller := some true,
             blockOwnerDeletion := some true }
    ∧ deleteIngress (constructIngress svcWeb) = ["default/web"] :=
  ⟨rfl,
    (deleteIngress_ownership (constructIngress svcWeb)).2.2
      { apiVersion := "v1", kind := "Service", name := "web", uid := "uid-1",
        controller := some true, blockOwnerDeletion := some true }
      rfl rfl⟩

/-- Claim C9: constructIngress copies name and namespace from the service,
sets a single controller owner reference of kind Service naming the service,
and attaches exactly one routing rule with a single path "/" backed by the
service's own name on the fixed default port 80. -/
theorem constructIngress_shape (service : Service) :
    (constructIngress service).name = service.name
    ∧ (constructIngress service).namespace_ = service.namespace_
    ∧ (constructIngress service).ownerReferences =
        [{ apiVersion := "v1", kind := "Service", name := service.name,
           uid := service.uid, controller := some true,
           blockOwnerDeletion := some true }]
    ∧ (constructIngress service).spec.rules =
        [{ host := "example.com",
           http := some
             { paths :=
                 [{ path := "/", pathType := some "Prefix",
                    backend :=
                      { service := some
                          { name := service.name,
                            port := { number := 80 } } } }] } }] :=
  ⟨rfl, rfl, rfl, rfl⟩

/-- Whether an enqueue action is a queue.Add. -/
def isAddAction : EnqueueAction → Bool
  | EnqueueAction.add _ => true
  | EnqueueAction.handleError => false

/-- Claim C10: enqueue performs exactly one queue.Add for every object, and
when key derivation fails it still Adds the zero-value (empty) key, having
only reported the error. -/
theorem enqueue_always_adds (obj : EventObj) :
    (List.filter isAddAction (enqueue obj)).length = 1
    ∧ ((metaNamespaceKeyFunc obj).2.isSome = true →
        EnqueueAction.add "" ∈ enqueue obj) := by
  cases obj with
  | withMeta ns name =>
      constructor
      · by_cases h : ns = "" <;>
          simp [enqueue, metaNamespaceKeyFunc, h, isAddAction]
      · intro hsome
        simp [metaNamespaceKeyFunc] at hsome
  | noMeta =>
      exact ⟨rfl, fun _ => by simp [enqueue, metaNamespaceKeyFunc]⟩

/-- Witness for C10 at an object whose metadata accessor fails: key
derivation errors out and the empty key is still added. -/
theorem enqueue_always_adds_witness :
    (metaNamespaceKeyFunc EventObj.noMeta).2.isSome = true
    ∧ EnqueueAction.add "" ∈ enqueue EventObj.noMeta :=
  ⟨rfl, (enqueue_always_adds EventObj.noMeta).2 rfl⟩

/-- Claim C3 counterexample: a key that fails reconciliation on every attempt
is NOT dropped after maxRetry + 1 attempts -- twelve consecutive failures
produce twelve AddRateLimited re-enqueues, exceeding the claimed bound of
maxRetry + 1 = 11, because Forget resets the counter after every attempt. -/
theorem retry_exceeds_bound :
    (failingAttempts "default/api" 12 []).2 = 12 ∧ ¬(12 ≤ maxRetry + 1) := by
  decide

/-- Claim C3 amended: a key that fails reconciliation on every attempt is
retried WITHOUT bound: starting from any queue state whose counter for the
key passes the check, every one of the n failing attempts issues
AddRateLimited, because the unconditional Forget at the end of handlerError
resets the counter to zero before the next check. -/
theorem failingAttempts_always_requeued (key : String) :
    ∀ (n : Nat) (st : RLState), numRequeues st key ≤ maxRetry →
      (failingAttempts key n st).2 = n := by
  intro n
  induction n with
  | zero => intro st _; rfl
  | succ n ih =>
      intro st h
      have hmem : RetryAction.addRateLimited key ∈ (handlerError st key).2 :=
        handlerError_requeues st key h
      have hzero : numRequeues (handlerError st key).1 key = 0 :=
        numRequeues_handlerError st key
      have hrest : (failingAttempts key n (handlerError st key).1).2 = n :=
        ih (handlerError st key).1 (by rw [hzero]; exact Nat.zero_le _)
      simp [failingAttempts, hmem, hrest]

/-- Witness for the amended C3: from the empty queue state, twelve failing
attempts issue twelve re-enqueues. -/
theorem failingAttempts_always_requeued_witness :
    numRequeues ([] : RLState) "default/web" ≤ maxRetry
    ∧ (failingAttempts "default/web" 12 []).2 = 12 :=
  ⟨by decide, failingAttempts_always_requeued "default/web" 12 [] (by decide)⟩

/-- Claim C5 counterexample: a malformed key (it splits into more than two
parts) IS re-enqueued: processing it issues an AddRateLimited call for it,
because syncService returns the split error and handlerError treats it like
any other failure. -/
theorem malformedKey_requeued :
    RetryAction.addRateLimited "x/y/z" ∈
      (processNextItem envEmpty [] (GetResult.item "x/y/z")).retryActions := by
  decide

/-- Claim C5 amended: a queue item that fails to split into namespace and
name makes syncService return the split error with no lister or store
interaction; the item is then handled by the generic retry policy -- the
error is reported and, whenever the key's counter is at most maxRetry (which
the unconditional Forget makes always true in runs), AddRateLimited re-enqueues
it -- so the malformed key is retried, not dropped. -/
theorem malformedKey_generic_retry (env : SyncEnv) (st : RLState)
    (key : String) (e : GoErr)
    (hsplit : splitMetaNamespaceKey key = Except.error e) :
    syncService env key = (SyncOutcome.ret (some e), [])
    ∧ (numRequeues st key ≤ maxRetry →
        RetryAction.addRateLimited key ∈
          (processNextItem env st (GetResult.item key)).retryActions) := by
  have hrun : syncService env key = (SyncOutcome.ret (some e), []) := by
    simp [syncService, hsplit]
  refine ⟨hrun, ?_⟩
  intro h
  simp only [processNextItem, hrun]
  exact handlerError_requeues st key h

/-- Witness for the amended C5 at the malformed key a/b/c. -/
theorem malformedKey_generic_retry_witness :
    splitMetaNamespaceKey "a/b/c" =
      Except.error (GoErr.other "unexpected key format: a/b/c")
    ∧ numRequeues ([] : RLState) "a/b/c" ≤ maxRetry
    ∧ RetryAction.addRateLimited "a/b/c" ∈
        (processNextItem envEmpty [] (GetResult.item "a/b/c")).retryActions :=
  ⟨by decide, by decide,
    (malformedKey_generic_retry envEmpty [] "a/b/c"
        (GoErr.other "unexpected key format: a/b/c") (by decide)).2 (by decide)⟩

/-- Claim C7 counterexample: processNextItem returns false on an item whose
reconciliation fails even though Get did not report shutdown, so the worker
loop exits on a sync error, not only on the shutdown signal. -/
theorem processNextItem_false_without_shutdown :
    (processNextItem envEmpty [] (GetResult.item "p/q/r")).cont = false
    ∧ GetResult.item "p/q/r" ≠ GetResult.shutdown := by
  decide

/-- Claim C7 amended: Done is called for every pulled item (every non-shutdown
Get result), whether syncService succeeds or fails; but processNextItem
returns true exactly when the pulled item's syncService returned nil -- it
returns false both on shutdown AND on a sync failure, so a failing key makes
the current worker's loop exit (the controller relies on wait.Until to restart
the worker). -/
theorem processNextItem_exit_condition (env : SyncEnv) (st : RLState)
    (g : GetResult) :
    ((processNextItem env st g).doneCalled = true ↔ g ≠ GetResult.shutdown)
    ∧ ((processNextItem env st g).cont = true ↔
        ∃ key, g = GetResult.item key
          ∧ (syncService env key).1 = SyncOutcome.ret none) := by
  cases g with
  | shutdown => simp [processNextItem]
  | item key =>
      cases hsync : syncService env key with
      | mk o calls =>
        cases o with
        | panicked => simp [processNextItem, hsync]
        | ret eo =>
          cases eo with
          | none => simp [processNextItem, hsync]
          | some e => simp [processNextItem, hsync]

/-- Witness for the amended C7: a key whose syncService succeeds makes
processNextItem return true. -/
theorem processNextItem_exit_condition_witness :
    (syncService envEmpty "default/web").1 = SyncOutcome.ret none
    ∧ (processNextItem envEmpty [] (GetResult.item "default/web")).cont = true :=
  ⟨by decide,
    (processNextItem_exit_condition envEmpty []
        (GetResult.item "default/web")).2.mpr
      ⟨"default/web", rfl, by decide⟩⟩

/-- Claim C2 counterexample: with collaborators whose answers are literally
the same on both invocations -- the service exists with the enable annotation,
the ingress lister answers not-found both times (a stale cache), and Create
succeeds -- the second invocation issues a Create as well, so a store mutation
does NOT occur on at most the first call. -/
theorem syncService_second_call_mutates :
    (twoCallsFixed envStale "default/web").2 =
      [StoreCall.create "default" (constructIngress svcWeb)]
    ∧ (twoCallsFixed envStale "default/web").2 ≠ [] := by
  decide

/-- Claim C1: syncService implements the decision table.  For a key that
splits into (ns, name): a not-found primary Service returns nil with no store
call; otherwise, with wantsDependent the presence of the ingress/http
annotation on the Service, it issues exactly one Create of the constructed
Ingress when wantsDependent holds and the Ingress is not found, exactly one
Delete for (ns, name) when wantsDependent fails and the Ingress is found, no
store call in the other two cases, and returns nil when the issued call (if
any) succeeds. -/
theorem syncService_decision_table (env : SyncEnv) (key ns name : String)
    (hsplit : splitMetaNamespaceKey key = Except.ok (ns, name)) :
    (env.serviceGet ns name = Except.error GoErr.notFound →
      syncService env key = (SyncOutcome.ret none, []))
    ∧ ∀ svc, env.serviceGet ns name = Except.ok svc →
        (((svc.annotations.lookup "ingress/http").isSome = true →
            env.ingressGet ns name = Except.error GoErr.notFound →
              (syncService env key).2 =
                  [StoreCall.create ns (constructIngress svc)]
              ∧ ∀ created,
                  env.createIngress ns (constructIngress svc) =
                      Except.ok created →
                    (syncService env key).1 = SyncOutcome.ret none)
          ∧ ((svc.annotations.lookup "ingress/http").isSome = true →
              ∀ ig, env.ingressGet ns name = Except.ok ig →
                syncService env key = (SyncOutcome.ret none, []))
          ∧ ((svc.annotations.lookup "ingress/http").isSome = false →
              ∀ ig, env.ingressGet ns name = Except.ok ig →
                (syncService env key).2 = [StoreCall.delete ns name]
                ∧ (env.deleteIngress ns name = none →
                    (syncService env key).1 = SyncOutcome.ret none))
          ∧ ((svc.annotations.lookup "ingress/http").isSome = false →
              env.ingressGet ns name = Except.error GoErr.notFound →
                syncService env key = (SyncOutcome.ret none, []))) := by
  refine ⟨?_, ?_⟩
  · intro hsvc
    simp [syncService, hsplit, hsvc]
  · intro svc hsvc
    refine ⟨?_, ?_, ?_, ?_⟩
    · intro hann hing
      constructor
      · cases hcr : env.createIngress ns (constructIngress svc) with
        | error e => simp [syncService, hsplit, hsvc, hann, hing, hcr]
        | ok created => simp [syncService, hsplit, hsvc, hann, hing, hcr]
      · intro created hcr
        simp [syncService, hsplit, hsvc, hann, hing, hcr]
    · intro hann ig hing
      simp [syncService, hsplit, hsvc, hann, hing]
    · intro hann ig hing
      constructor
      · cases hdel : env.deleteIngress ns name with
        | none => simp [syncService, hsplit, hsvc, hann, hing, hdel]
        | some e => simp [syncService, hsplit, hsvc, hann, hing, hdel]
      · intro hdel
        simp [syncService, hsplit, hsvc, hann, hing, hdel]
    · intro hann hing
      simp [syncService, hsplit, hsvc, hann, hing]

/-- Witness for C1 in the create row of the decision table: the service web
carries the annotation, the ingress is not found, and the run issues exactly
one Create and returns nil. -/
theorem syncService_decision_table_witness :
    splitMetaNamespaceKey "default/web" = Except.ok ("default", "web")
    ∧ envStale.serviceGet "default" "web" = Except.ok svcWeb
    ∧ (syncService envStale "default/web").2 =
        [StoreCall.create "default" (constructIngress svcWeb)]
    ∧ (syncService envStale "default/web").1 = SyncOutcome.ret none := by
  have h := syncService_decision_table envStale "default/web" "default" "web"
    (by decide)
  have h2 := (h.2 svcWeb rfl).1 (by decide) rfl
  exact ⟨by decide, rfl, h2.1, h2.2 (constructIngress svcWeb) rfl⟩

/-- find? skips a prefix in which nothing satisfies the predicate. -/
theorem find?_append_none {α : Type} (p : α → Bool) {l1 : List α}
    (l2 : List α) (h : List.find? p l1 = none) :
    List.find? p (l1 ++ l2) = List.find? p l2 := by
  induction l1 with
  | nil => rfl
  | cons a t ih =>
      cases hpa : p a with
      | true => rw [List.find?_cons_of_pos _ hpa] at h; cases h
      | false =>
          rw [List.find?_cons_of_neg _ (by simp [hpa])] at h
          rw [List.cons_append, List.find?_cons_of_neg _ (by simp [hpa])]
          exact ih h

/-- find? over a list from which everything satisfying the predicate was
filtered out yields nothing. -/
theorem find?_filter_not {α : Type} (p : α → Bool) (l : List α) :
    List.find? p (List.filter (fun a => !p a) l) = none := by
  induction l with
  | nil => rfl
  | cons a t ih =>
      cases hpa : p a with
      | true =>
          rw [List.filter_cons]
          simp only [hpa, Bool.not_true, Bool.false_eq_true, if_false]
          exact ih
      | false =>
          rw [List.filter_cons]
          simp only [hpa, Bool.not_false, if_pos]
          rw [List.find?_cons_of_neg _ (by simp [hpa])]
          exact ih

/-- A run whose primary service is not found issues no store call. -/
theorem syncService_noop_gone (env : SyncEnv) (key ns name : String)
    (hsplit : splitMetaNamespaceKey key = Except.ok (ns, name))
    (hsvc : env.serviceGet ns name = Except.error GoErr.notFound) :
    (syncService env key).2 = [] := by
  simp [syncService, hsplit, hsvc]

/-- A run whose service carries the annotation and whose ingress is found
issues no store call. -/
theorem syncService_noop_found (env : SyncEnv) (key ns name : String)
    (svc : Service) (ig : Ingress)
    (hsplit : splitMetaNamespaceKey key = Except.ok (ns, name))
    (hsvc : env.serviceGet ns name = Except.ok svc)
    (hann : (svc.annotations.lookup "ingress/http").isSome = true)
    (hing : env.ingressGet ns name = Except.ok ig) :
    (syncService env key).2 = [] := by
  simp [syncService, hsplit, hsvc, hann, hing]

/-- A run whose service lacks the annotation and whose ingress is not found
issues no store call. -/
theorem syncService_noop_absent (env : SyncEnv) (key ns name : String)
    (svc : Service)
    (hsplit : splitMetaNamespaceKey key = Except.ok (ns, name))
    (hsvc : env.serviceGet ns name = Except.ok svc)
    (hann : (svc.annotations.lookup "ingress/http").isSome = false)
    (hing : env.ingressGet ns name = Except.error GoErr.notFound) :
    (syncService env key).2 = [] := by
  simp [syncService, hsplit, hsvc, hann, hing]

/-- The store client of a world environment always lets Create succeed. -/
theorem worldEnv_create (w : World) (ns : String) (ig : Ingress) :
    (worldEnv w).createIngress ns ig = Except.ok ig := rfl

/-- The store client of a world environment always lets Delete succeed. -/
theorem worldEnv_delete (w : World) (ns name : String) :
    (worldEnv w).deleteIngress ns name = none := rfl

/-- Claim C2 amended: under world semantics -- the listers read the store and
the second invocation sees the store state the first invocation's calls
produced -- invoking syncService twice in a row on the same key produces a
store mutation on at most the first call: the second invocation issues no
store call at all. -/
theorem syncService_world_idempotent (w : World) (key : String) :
    (syncService (worldEnv (syncOnce w key).2) key).2 = [] := by
  unfold syncOnce
  cases hsplit : splitMetaNamespaceKey key with
  | error e =>
      have hrun : syncService (worldEnv w) key = (SyncOutcome.ret (some e), []) := by
        simp [syncService, hsplit]
      simp [hrun, applyCalls, syncService, hsplit]
  | ok p =>
    obtain ⟨ns, name⟩ := p
    cases hfs : List.find? (fun s => s.namespace_ == ns && s.name == name)
        w.services with
    | none =>
        have hsvc : (worldEnv w).serviceGet ns name =
            Except.error GoErr.notFound := by
          simp [worldEnv, World.getService, hfs]
        have hrun : syncService (worldEnv w) key = (SyncOutcome.ret none, []) := by
          simp [syncService, hsplit, hsvc]
        simp [hrun, applyCalls, syncService, hsplit, hsvc]
    | some svc =>
        have hsvc : (worldEnv w).serviceGet ns name = Except.ok svc := by
          simp [worldEnv, World.getService, hfs]
        have hpred := List.find?_some hfs
        rw [Bool.and_eq_true, beq_iff_eq, beq_iff_eq] at hpred
        cases hann : (svc.annotations.lookup "ingress/http").isSome with
        | true =>
          cases hfi : List.find? (fun i => i.namespace_ == ns && i.name == name)
              w.ingresses with
          | none =>
              have hing : (worldEnv w).ingressGet ns name =
                  Except.error GoErr.notFound := by
                simp [worldEnv, World.getIngress, hfi]
              have hrun : syncService (worldEnv w) key =
                  (SyncOutcome.ret none,
                    [StoreCall.create ns (constructIngress svc)]) := by
                simp [syncService, hsplit, hsvc, hann, hing, worldEnv_create]
              rw [hrun]
              have hw1 : applyCalls w [StoreCall.create ns (constructIngress svc)] =
                  { w with ingresses := w.ingresses ++ [constructIngress svc] } := rfl
              rw [hw1]
              have hfs1 : List.find?
                  (fun s => s.namespace_ == ns && s.name == name)
                  ({ w with ingresses := w.ingresses ++ [constructIngress svc] } :
                    World).services = some svc := hfs
              have hsvc1 : (worldEnv { w with
                  ingresses := w.ingresses ++ [constructIngress svc] }).serviceGet
                    ns name = Except.ok svc := by
                simp [worldEnv, World.getService, hfs1]
              have hfi1 : List.find?
                  (fun i => i.namespace_ == ns && i.name == name)
                  (w.ingresses ++ [constructIngress svc]) =
                    some (constructIngress svc) := by
                rw [find?_append_none _ _ hfi]
                have : ((constructIngress svc).namespace_ == ns &&
                    (constructIngress svc).name == name) = true := by
                  simp [constructIngress, hpred.1, hpred.2]
                simp [List.find?, this]
              have hing1 : (worldEnv { w with
                  ingresses := w.ingresses ++ [constructIngress svc] }).ingressGet
                    ns name = Except.ok (constructIngress svc) := by
                simp [worldEnv, World.getIngress, hfi1]
              simp [syncService, hsplit, hsvc1, hann, hing1]
          | some ig =>
              have hing : (worldEnv w).ingressGet ns name = Except.ok ig := by
                simp [worldEnv, World.getIngress, hfi]
              have hrun : syncService (worldEnv w) key = (SyncOutcome.ret none, []) := by
                simp [syncService, hsplit, hsvc, hann, hing]
              simp [hrun, applyCalls, syncService, hsplit, hsvc, hann, hing]
        | false =>
          cases hfi : List.find? (fun i => i.namespace_ == ns && i.name == name)
              w.ingresses with
          | none =>
              have hing : (worldEnv w).ingressGet ns name =
                  Except.error GoErr.notFound := by
                simp [worldEnv, World.getIngress, hfi]
              have hrun : syncService (worldEnv w) key = (SyncOutcome.ret none, []) := by
                simp [syncService, hsplit, hsvc, hann, hing]
              simp [hrun, applyCalls, syncService, hsplit, hsvc, hann, hing]
          | some ig =>
              have hing : (worldEnv w).ingressGet ns name = Except.ok ig := by
                simp [worldEnv, World.getIngress, hfi]
              have hrun : syncService (worldEnv w) key =
                  (SyncOutcome.ret none, [StoreCall.delete ns name]) := by
                simp [syncService, hsplit, hsvc, hann, hing, worldEnv_delete]
              rw [hrun]
              have hw1 : applyCalls w [StoreCall.delete ns name] =
                  { w with ingresses :=
                      (List.filter
                        (fun i => !(i.namespace_ == ns && i.name == name))
                        w.ingresses) } := rfl
              rw [hw1]
              have hfs1 : List.find?
                  (fun s => s.namespace_ == ns && s.name == name)
                  ({ w with ingresses :=
                      (List.filter
                        (fun i => !(i.namespace_ == ns && i.name == name))
                        w.ingresses) } : World).services = some svc := hfs
              have hsvc1 : (worldEnv { w with ingresses :=
                  (List.filter
                    (fun i => !(i.namespace_ == ns && i.name == name))
                    w.ingresses) }).serviceGet ns name = Except.ok svc := by
                simp [worldEnv, World.getService, hfs1]
              have hing1 : (worldEnv { w with ingresses :=
                  (List.filter
                    (fun i => !(i.namespace_ == ns && i.name == name))
                    w.ingresses) }).ingressGet ns name =
                    Except.error GoErr.notFound := by
                simp only [worldEnv, World.getIngress]
                rw [find?_filter_not]
              exact syncService_noop_absent _ key ns name svc hsplit hsvc1
                hann hing1

end ClientGoTest
